import Mathlib

/-!
Verification development for the benchstats repository: a shallow embedding
of the CLI driver (`__main__.py`), argument configuration (`cli_parser.py`)
and rendering helpers (`render.py`), together with a model of the statistical
comparison engine (`compare.py`, absent from the sources; modelled from the
specification). Measurements are embedded as exact rationals.
-/

namespace Benchstats

/-- A Sample Set: the ordered sequence of measurements for one
(benchmark, metric) pair of one source. -/
abbrev Sample := List ℚ

/-- Metric name to Sample Set, for one benchmark of one source. -/
abbrev MetricMap := List (String × Sample)

/-- A Sample Mapping: benchmark name to metric name to Sample Set. -/
abbrev SampleMapping := List (String × MetricMap)

/-- Arithmetic mean of a sample, used as the representative statistic. -/
def qmean (s : Sample) : ℚ := s.sum / (s.length : ℚ)

/-- One Comparison Outcome, with the field names used by the renderer
(`res.result`, `res.pvalue`, `res.val_set1`, `res.val_set2`, `res.size1`,
`res.size2` in render.py). -/
structure CompareOutcome where
  result : String
  pvalue : ℚ
  val_set1 : Sample
  val_set2 : Sample
  size1 : ℕ
  size2 : ℕ
deriving Repr, DecidableEq

/-- The Comparison Result aggregate consumed by the renderer and the exit
code decision (`cr.results`, `cr.alpha`, `cr.method`, `cr.at_least_one_differs`). -/
structure CompareStatsResult where
  method : String
  alpha : ℚ
  results : List (String × List (String × CompareOutcome))
  at_least_one_differs : Bool
deriving Repr, DecidableEq

/-- Modelled from the spec: the per-pair classification of
`compareStats` in benchstats/compare.py, which is absent from the sources.
Spec 4.2: a pair where either side has fewer than 2 observations is reported
as same with p-value 1.0; otherwise the selected two-sample test runs and
yields p; if p is at least alpha the pair is same, else the direction follows
the representative statistics (mean), a tie deterministically preferring
greater. -/
def comparePair (tf : Sample → Sample → ℚ) (alpha : ℚ) (a b : Sample) :
    CompareOutcome :=
  if a.length < 2 ∨ b.length < 2 then
    { result := "~", pvalue := 1, val_set1 := a, val_set2 := b,
      size1 := a.length, size2 := b.length }
  else if tf a b ≥ alpha then
    { result := "~", pvalue := tf a b, val_set1 := a, val_set2 := b,
      size1 := a.length, size2 := b.length }
  else if qmean a < qmean b then
    { result := "<", pvalue := tf a b, val_set1 := a, val_set2 := b,
      size1 := a.length, size2 := b.length }
  else
    { result := ">", pvalue := tf a b, val_set1 := a, val_set2 := b,
      size1 := a.length, size2 := b.length }

/-- Modelled from the spec: the per-suite result mapping built by
`compareStats` (compare.py, absent from the sources). Spec 4.2: only
benchmark names present in both mappings are considered, and per benchmark
only metric names present with data in both sides are compared; everything
else is silently dropped. -/
def buildResults (s1 s2 : SampleMapping) (tf : Sample → Sample → ℚ)
    (alpha : ℚ) : List (String × List (String × CompareOutcome)) :=
  s1.filterMap (fun be =>
    match s2.lookup be.1 with
    | none => none
    | some metrics2 =>
      some (be.1, be.2.filterMap (fun me =>
        match metrics2.lookup me.1 with
        | none => none
        | some smp2 => some (me.1, comparePair tf alpha me.2 smp2))))

/-- Modelled from the spec: the derived flag of the Comparison Result,
true iff any primary metric outcome across any benchmark has a direction
other than same (spec 3). -/
def atLeastOneDiffers (results : List (String × List (String × CompareOutcome)))
    (main_metrics : List String) : Bool :=
  results.any (fun be =>
    be.2.any (fun me => main_metrics.contains me.1 && me.2.result != "~"))

/-- Modelled from the spec: `compareStats(source1, source2, method, alpha)`
of benchstats/compare.py, absent from the sources (spec 4.2). The selected
test function `tf` stands for the registry entry named by `method`; the
caller-designated primary metrics parametrize the derived flag. The alpha
stored is exactly the value passed in. -/
def compareStats (s1 s2 : SampleMapping) (method : String)
    (tf : Sample → Sample → ℚ) (alpha : ℚ) (main_metrics : List String) :
    CompareStatsResult :=
  { method := method, alpha := alpha,
    results := buildResults s1 s2 tf alpha,
    at_least_one_differs := atLeastOneDiffers (buildResults s1 s2 tf alpha) main_metrics }

/-- Ordered set of distinct metric names appearing in the results, first
occurrence order (`CompareStatsResult.getMetrics`, spec 4.3). -/
def dedupFirst (l : List String) (seen : List String) : List String :=
  match l with
  | [] => []
  | x :: xs => if seen.contains x then dedupFirst xs seen
               else x :: dedupFirst xs (x :: seen)

/-- The `getMetrics()` query of the Comparison Result (spec 4.3): the
ordered set of distinct metric names appearing in `results`. -/
def getMetrics (cr : CompareStatsResult) : List String :=
  dedupFirst ((cr.results.map (fun be => be.2.map (fun me => me.1))).flatten) []

/-- The alpha handed to `compareStats` by `main` (__main__.py lines 38-44):
when --bonferroni is set, the user alpha divided by `len(s1)`, the number of
benchmark entries of the first parsed source. -/
def effectiveAlphaMain (alpha : ℚ) (bonferroni : Bool) (s1 : SampleMapping) : ℚ :=
  if bonferroni then alpha / (s1.length : ℚ) else alpha

/-- Number of (benchmark, metric) comparisons of a Comparison Result that
involve a primary metric. -/
def numPrimaryMetricTests (cr : CompareStatsResult) (main_metrics : List String) : ℕ :=
  (cr.results.map (fun be =>
    (be.2.filter (fun me => main_metrics.contains me.1)).length)).sum

/-- The alpha validity gate of `main` (__main__.py line 25): the run is
rejected when `args.alpha > 0.5 or args.alpha <= 0`. -/
def alphaConfigValid (alpha : ℚ) : Bool := !(alpha > 1/2 || alpha ≤ 0)

/-- The process exit status selected by `main` (__main__.py): 2 when the
alpha gate rejects (before any parsing or comparison), otherwise 1 when the
Comparison Result flag `at_least_one_differs` is set, otherwise 0 by normal
return. -/
def mainExitCode (alpha : ℚ) (bonferroni : Bool) (s1 s2 : SampleMapping)
    (method : String) (tf : Sample → Sample → ℚ) (main_metrics : List String) : ℕ :=
  if alpha > 1/2 ∨ alpha ≤ 0 then 2
  else
    if (compareStats s1 s2 method tf (effectiveAlphaMain alpha bonferroni s1)
        main_metrics).at_least_one_differs then 1 else 0

/-- Modelled from the spec: the Test Method Registry `kMethods` of
benchstats/compare.py, absent from the sources. Spec 4.1: a static mapping
from method id to display name and reference url, holding a ranked
non-parametric two-sample test and a second robust alternative. -/
def kMethods : List (String × String × String) :=
  [("brunnermunzel", "Brunner Munzel test",
    "https://en.wikipedia.org/wiki/Brunner_Munzel_Test"),
   ("mannwhitneyu", "Mann-Whitney U test",
    "https://en.wikipedia.org/wiki/Mann-Whitney_U_test")]

/-- The method ids offered by the registry, in registry order. -/
def kMethodIds : List String := kMethods.map (fun e => e.1)

/-- Result of argparse validation of one string option. -/
inductive ArgChoice where
  | accepted : String → ArgChoice
  | invalidChoice : String → ArgChoice
deriving Repr, DecidableEq

/-- The --method option handling of `makeParser` (cli_parser.py lines
110-125): argparse restricts the value to `choices=kMethods.keys()` and the
default is `list(kMethods.keys())[0]`; an invalid choice is rejected during
argument parsing, before anything else runs. -/
def parseMethodArg (arg : Option String) : ArgChoice :=
  match arg with
  | none => ArgChoice.accepted kMethodIds.headI
  | some s =>
    if kMethodIds.contains s then ArgChoice.accepted s
    else ArgChoice.invalidChoice s

/-- The main-metric resolution of `main` (__main__.py lines 50-53): when
`args.main_metrics` is None or empty the list `[args.metrics[0]]` is used,
else each index is looked up in `args.metrics`; `none` models an
IndexError. -/
def resolveMainMetricsCli (main_metrics : Option (List ℕ)) (metrics : List String) :
    Option (List String) :=
  match main_metrics with
  | none => (metrics.get? 0).map (fun m => [m])
  | some l =>
    if l.length < 1 then (metrics.get? 0).map (fun m => [m])
    else l.mapM (fun mi => metrics.get? mi)

/-- The default of the --main_metrics option (cli_parser.py line 107):
the index list [0]. -/
def kMainMetricsDefault : Option (List ℕ) := some [0]

/-- The main-metric resolution of `renderComparisonResults` (render.py lines
193-197): when `main_metrics` is None or empty, the first element of
`comp_res.getMetrics()` is substituted; otherwise every given name must be a
known metric (assertion, modelled as `none`). -/
def resolveMainMetricsRender (main_metrics : Option (List String))
    (metrics : List String) : Option (List String) :=
  match main_metrics with
  | none => (metrics.get? 0).map (fun m => [m])
  | some l =>
    if l.length < 1 then (metrics.get? 0).map (fun m => [m])
    else if l.all (fun m => metrics.contains m) then some l
    else none

/-- Classification of one rendered cell by the false-positive accounting of
`renderComparisonResults` (render.py lines 296-301). -/
inductive FpBucket where
  | lessBucket
  | greaterBucket
  | noCount
  | assertFail
deriving Repr, DecidableEq

/-- The false-positive accounting branch of `renderComparisonResults`
(render.py lines 296-301): a differing result that is not the character
less-than is asserted to be the character greater-than. -/
def fpBucketStep (result : String) : FpBucket :=
  if result != "~" then
    if result = "<" then FpBucket.lessBucket
    else if result = ">" then FpBucket.greaterBucket
    else FpBucket.assertFail
  else FpBucket.noCount

/-- Left-pads a string with a given character up to a given width, as the
width field of a Python format specifier does. -/
def padLeft (s : String) (w : ℕ) (c : Char) : String :=
  if w ≤ s.length then s else String.mk (List.replicate (w - s.length) c) ++ s

/-- Left-pads with zeros, for fractional digit groups and exponents. -/
def zeroPad (s : String) (w : ℕ) : String := padLeft s w '0'

/-- Rounding to the nearest integer, ties to even, as Python float
formatting rounds decimal digit strings. -/
def roundHalfEven (q : ℚ) : ℤ :=
  if q - Int.floor q < 1/2 then Int.floor q
  else if q - Int.floor q > 1/2 then Int.floor q + 1
  else if Int.floor q % 2 = 0 then Int.floor q else Int.floor q + 1

/-- The fixed-point float format of Python, width `w` and `d` fractional
digits, over exact rationals. -/
def fmtFixed (v : ℚ) (d w : ℕ) : String :=
  let scaled := roundHalfEven (v * (10 : ℚ) ^ d)
  let n := scaled.natAbs
  let sign := if v < 0 then "-" else ""
  let frac := if d = 0 then "" else "." ++ zeroPad (toString (n % 10 ^ d)) d
  padLeft (sign ++ toString (n / 10 ^ d) ++ frac) w ' '

/-- The `_render` closure inside `makeReadable` (render.py lines 63-66):
fixed width `prec+4`, with `prec` fractional digits for values of at least
100, one more below 100, two more below 10. -/
def _render (v : ℚ) (prec : ℕ) : String :=
  if v ≥ 100 then fmtFixed v prec (prec + 4)
  else if v ≥ 10 then fmtFixed v (prec + 1) (prec + 4)
  else fmtFixed v (prec + 2) (prec + 4)

/-- Scales a rational by an integer power of ten. -/
def scaleByPow10 (a : ℚ) (e : ℤ) : ℚ :=
  if 0 ≤ e then a * (10 : ℚ) ^ e.toNat else a / (10 : ℚ) ^ (-e).toNat

/-- Floor of the base-10 logarithm of a positive rational, computed from the
digit counts of numerator and denominator. -/
def qlog10floor (a : ℚ) : ℤ :=
  let e : ℤ := (Nat.log 10 a.num.natAbs : ℤ) - (Nat.log 10 a.den : ℤ)
  if scaleByPow10 1 (e + 1) ≤ a then e + 1
  else if scaleByPow10 1 e ≤ a then e
  else e - 1

/-- The exponent part of a Python scientific float format: a sign and at
least two digits. -/
def expPart (e : ℤ) : String :=
  "e" ++ (if e < 0 then "-" else "+") ++ zeroPad (toString e.natAbs) 2

/-- The scientific float format of Python with `prec` fractional mantissa
digits, over exact rationals. -/
def sciFormat (v : ℚ) (prec : ℕ) : String :=
  if v = 0 then
    (if prec = 0 then "0" else "0." ++ zeroPad "" prec) ++ "e+00"
  else
    let sign := if v < 0 then "-" else ""
    let a := |v|
    let e := qlog10floor a
    let sm := (roundHalfEven (scaleByPow10 a (-e) * (10 : ℚ) ^ prec)).natAbs
    let carry := decide (10 ^ (prec + 1) ≤ sm)
    let sm2 := if carry then 10 ^ prec else sm
    let e2 := if carry then e + 1 else e
    sign ++ toString (sm2 / 10 ^ prec) ++
      (if prec = 0 then "" else "." ++ zeroPad (toString (sm2 % 10 ^ prec)) prec) ++
      expPart e2

/-- The metric suffixes appended by `makeReadable`, in band order. -/
def kSuffixes : List String := ["m", "u", "n", "p", "f"]

/-- `makeReadable(value, prec)` of render.py lines 59-86: fixed-point for a
value of at least 1; otherwise repeated multiplication by 1000 with suffix
m, u, n, p or f at the first product of at least 1; otherwise scientific
format of the original value. -/
def makeReadable (value : ℚ) (prec : ℕ) : String :=
  if value ≥ 1 then _render value prec
  else if value * 1000 ≥ 1 then
    _render (value * 1000) prec ++ "m"
  else if value * 1000 * 1000 ≥ 1 then
    _render (value * 1000 * 1000) prec ++ "u"
  else if value * 1000 * 1000 * 1000 ≥ 1 then
    _render (value * 1000 * 1000 * 1000) prec ++ "n"
  else if value * 1000 * 1000 * 1000 * 1000 ≥ 1 then
    _render (value * 1000 * 1000 * 1000 * 1000) prec ++ "p"
  else if value * 1000 * 1000 * 1000 * 1000 * 1000 ≥ 1 then
    _render (value * 1000 * 1000 * 1000 * 1000 * 1000) prec ++ "f"
  else sciFormat value prec

/-- Index of the last occurrence of a character in a character list, as the
Python str.rfind used by os.path.splitext. -/
def rfindChar (l : List Char) (c : Char) : Option ℕ :=
  match (l.reverse).findIdx? (fun x => x == c) with
  | none => none
  | some k => some (l.length - 1 - k)

/-- Integer index view of rfind, -1 when absent, as in Python. -/
def rfindIdx (l : List Char) (c : Char) : ℤ :=
  match rfindChar l c with
  | none => -1
  | some i => (i : ℤ)

/-- `os.path.splitext` for posix paths, as used by `_detectExportFormat`:
the extension starts at the last dot after the last slash, unless every
character between them is a dot. -/
def splitext (p : String) : String × String :=
  let l := p.data
  let sepIdx := rfindIdx l '/'
  let dotIdx := rfindIdx l '.'
  if sepIdx < dotIdx then
    let fstart := (sepIdx + 1).toNat
    let dIdx := dotIdx.toNat
    if (List.range (dIdx - fstart)).any (fun j => l.getD (fstart + j) '.' != '.') then
      (String.mk (l.take dIdx), String.mk (l.drop dIdx))
    else (p, "")
  else (p, "")

/-- The export formats known to the renderer (render.py line 15). -/
def kAvailableFormats : List String := ["txt", "svg", "html"]

/-- Result of `_detectExportFormat`, separating a returned value from a
failed assertion. -/
inductive DetectResult where
  | ok : Option String → DetectResult
  | assertError : String → DetectResult
deriving Repr, DecidableEq

/-- `_detectExportFormat(export_to, export_fmt)` of render.py lines 43-56:
asserts that either both arguments are None or export_to is a non-empty
string, asserts that export_fmt when given is a known format, infers the
format from the export_to extension when export_fmt is None (asserting the
extension is known), and returns the format. -/
def _detectExportFormat (export_to export_fmt : Option String) : DetectResult :=
  let ok1 :=
    match export_to, export_fmt with
    | none, none => true
    | some s, _ => decide (0 < s.length)
    | none, some _ => false
  if !ok1 then DetectResult.assertError "export_to and export_fmt shape"
  else
    let ok2 :=
      match export_fmt with
      | none => true
      | some f => kAvailableFormats.contains f
    if !ok2 then DetectResult.assertError "export_fmt not in kAvailableFormats"
    else
      match export_to, export_fmt with
      | some p, none =>
        let ext := (splitext p).2
        if (kAvailableFormats.map (fun e => "." ++ e)).contains ext then
          DetectResult.ok (some (ext.drop 1))
        else DetectResult.assertError "Unrecognized export file extension"
      | _, _ => DetectResult.ok export_fmt

/-- The recorded size of the first sample is its length, in every branch. -/
theorem comparePair_size1 (tf : Sample → Sample → ℚ) (alpha : ℚ) (a b : Sample) :
    (comparePair tf alpha a b).size1 = a.length := by
  unfold comparePair
  split_ifs <;> rfl

/-- The recorded size of the second sample is its length, in every branch. -/
theorem comparePair_size2 (tf : Sample → Sample → ℚ) (alpha : ℚ) (a b : Sample) :
    (comparePair tf alpha a b).size2 = b.length := by
  unfold comparePair
  split_ifs <;> rfl

/-- Every branch of the pair classification yields one of the three
direction encodings. -/
theorem comparePair_result_cases (tf : Sample → Sample → ℚ) (alpha : ℚ)
    (a b : Sample) :
    (comparePair tf alpha a b).result = "<" ∨
    (comparePair tf alpha a b).result = ">" ∨
    (comparePair tf alpha a b).result = "~" := by
  unfold comparePair
  split_ifs <;> simp

/-- On non-degenerate samples the classification rejects exactly below
alpha. -/
theorem comparePair_result_iff (tf : Sample → Sample → ℚ) (alpha : ℚ)
    (a b : Sample) (h1 : 2 ≤ a.length) (h2 : 2 ≤ b.length) :
    ((comparePair tf alpha a b).result ≠ "~" ↔
      (comparePair tf alpha a b).pvalue < alpha) := by
  unfold comparePair
  split_ifs with hdeg hp hlt
  · rcases hdeg with h | h <;> omega
  · simp
    exact hp
  · simp
    exact lt_of_not_ge hp
  · simp
    exact lt_of_not_ge hp

/-- A degenerate pair is reported as same with p-value one. -/
theorem comparePair_degenerate (tf : Sample → Sample → ℚ) (alpha : ℚ)
    (a b : Sample) (h : a.length < 2 ∨ b.length < 2) :
    (comparePair tf alpha a b).result = "~" ∧
    (comparePair tf alpha a b).pvalue = 1 := by
  unfold comparePair
  rw [if_pos h]
  exact ⟨rfl, rfl⟩

/-- Every outcome stored in the built results is the classification of some
pair of samples. -/
theorem mem_buildResults (s1 s2 : SampleMapping) (tf : Sample → Sample → ℚ)
    (alpha : ℚ) (bm m : String) (bms : List (String × CompareOutcome))
    (o : CompareOutcome) (hbm : (bm, bms) ∈ buildResults s1 s2 tf alpha)
    (hm : (m, o) ∈ bms) :
    ∃ a b : Sample, o = comparePair tf alpha a b := by
  obtain ⟨⟨bn, met1⟩, hmem, hf⟩ := List.mem_filterMap.mp hbm
  cases hlk : s2.lookup bn with
  | none => rw [hlk] at hf; simp at hf
  | some met2 =>
    rw [hlk] at hf
    simp only [Option.some.injEq, Prod.mk.injEq] at hf
    obtain ⟨hbn, hbms⟩ := hf
    rw [← hbms] at hm
    obtain ⟨⟨mn, smp1⟩, hmem2, hf2⟩ := List.mem_filterMap.mp hm
    cases hlk2 : met2.lookup mn with
    | none => rw [hlk2] at hf2; simp at hf2
    | some smp2 =>
      rw [hlk2] at hf2
      simp only [Option.some.injEq, Prod.mk.injEq] at hf2
      exact ⟨smp1, smp2, hf2.2.symm⟩

/-- Every (benchmark, metric) pair present in both mappings yields an
outcome in the built results: the construction is total. -/
theorem buildResults_total (s1 s2 : SampleMapping) (tf : Sample → Sample → ℚ)
    (alpha : ℚ) (bm m : String) (met1 : MetricMap) (met2 : MetricMap)
    (a b : Sample) (h1 : (bm, met1) ∈ s1) (h2 : s2.lookup bm = some met2)
    (h3 : (m, a) ∈ met1) (h4 : met2.lookup m = some b) :
    ∃ bms, (bm, bms) ∈ buildResults s1 s2 tf alpha ∧
      (m, comparePair tf alpha a b) ∈ bms := by
  refine ⟨met1.filterMap (fun me =>
    match met2.lookup me.1 with
    | none => none
    | some smp2 => some (me.1, comparePair tf alpha me.2 smp2)), ?_, ?_⟩
  · apply List.mem_filterMap.mpr
    refine ⟨(bm, met1), h1, ?_⟩
    simp only [h2]
  · apply List.mem_filterMap.mpr
    refine ⟨(m, a), h3, ?_⟩
    simp only [h4]

/-- C1: in every Comparison Result produced by compareStats, for each
(benchmark, metric) pair whose two samples both had at least 2 observations,
the direction differs from same exactly when the p-value is strictly below
alpha; equivalently every such pair classified same has p-value at least
alpha. -/
theorem C1_direction_iff_pvalue (s1 s2 : SampleMapping) (method : String)
    (tf : Sample → Sample → ℚ) (alpha : ℚ) (mm : List String)
    (bm m : String) (bms : List (String × CompareOutcome)) (o : CompareOutcome)
    (hbm : (bm, bms) ∈ (compareStats s1 s2 method tf alpha mm).results)
    (hm : (m, o) ∈ bms) (h1 : 2 ≤ o.size1) (h2 : 2 ≤ o.size2) :
    (o.result ≠ "~" ↔ o.pvalue < alpha) := by
  have hres : (compareStats s1 s2 method tf alpha mm).results
      = buildResults s1 s2 tf alpha := rfl
  rw [hres] at hbm
  obtain ⟨a, b, rfl⟩ := mem_buildResults s1 s2 tf alpha bm m bms o hbm hm
  rw [comparePair_size1] at h1
  rw [comparePair_size2] at h2
  exact comparePair_result_iff tf alpha a b h1 h2

/-- Closed witness for C1 on a concrete suite with a rejecting test. -/
theorem C1_direction_iff_pvalue_witness :
    ((comparePair (fun _ _ => (0 : ℚ)) 1 [1, 2, 3] [4, 5, 6]).result ≠ "~" ↔
      (comparePair (fun _ _ => (0 : ℚ)) 1 [1, 2, 3] [4, 5, 6]).pvalue < 1) :=
  C1_direction_iff_pvalue [("bm", [("t", [1, 2, 3])])] [("bm", [("t", [4, 5, 6])])]
    "brunnermunzel" (fun _ _ => (0 : ℚ)) 1 ["t"] "bm" "t"
    [("t", comparePair (fun _ _ => (0 : ℚ)) 1 [1, 2, 3] [4, 5, 6])]
    (comparePair (fun _ _ => (0 : ℚ)) 1 [1, 2, 3] [4, 5, 6])
    (List.Mem.head _) (List.Mem.head _)
    (by rw [comparePair_size1]; decide) (by rw [comparePair_size2]; decide)

/-- C2: a pair with fewer than 2 observations on either side is reported as
same with p-value 1.0, and compareStats is total: every (benchmark, metric)
pair present in both well-formed mappings, degenerate or not, receives an
outcome rather than an error. -/
theorem C2_degenerate_same_and_total (s1 s2 : SampleMapping) (method : String)
    (tf : Sample → Sample → ℚ) (alpha : ℚ) (mm : List String) :
    (∀ (bm m : String) (bms : List (String × CompareOutcome)) (o : CompareOutcome),
      (bm, bms) ∈ (compareStats s1 s2 method tf alpha mm).results →
      (m, o) ∈ bms → (o.size1 < 2 ∨ o.size2 < 2) →
      o.result = "~" ∧ o.pvalue = 1) ∧
    (∀ (bm m : String) (met1 met2 : MetricMap) (a b : Sample),
      (bm, met1) ∈ s1 → s2.lookup bm = some met2 →
      (m, a) ∈ met1 → met2.lookup m = some b →
      ∃ bms, (bm, bms) ∈ (compareStats s1 s2 method tf alpha mm).results ∧
        (m, comparePair tf alpha a b) ∈ bms) := by
  constructor
  · intro bm m bms o hbm hm hdeg
    have hres2 : (compareStats s1 s2 method tf alpha mm).results
        = buildResults s1 s2 tf alpha := rfl
    rw [hres2] at hbm
    obtain ⟨a, b, rfl⟩ := mem_buildResults s1 s2 tf alpha bm m bms o hbm hm
    rw [comparePair_size1, comparePair_size2] at hdeg
    exact comparePair_degenerate tf alpha a b hdeg
  · intro bm m met1 met2 a b h1 h2 h3 h4
    exact buildResults_total s1 s2 tf alpha bm m met1 met2 a b h1 h2 h3 h4

/-- Closed witness for C2 at the degenerate suite of spec section 8. -/
theorem C2_degenerate_same_and_total_witness :
    (comparePair (fun _ _ => (1 : ℚ)) 1 [5] [5, 6]).result = "~" ∧
    (comparePair (fun _ _ => (1 : ℚ)) 1 [5] [5, 6]).pvalue = 1 :=
  (C2_degenerate_same_and_total [("bm", [("t", [5])])] [("bm", [("t", [5, 6])])]
      "brunnermunzel" (fun _ _ => (1 : ℚ)) 1 ["t"]).1 "bm" "t"
    [("t", comparePair (fun _ _ => (1 : ℚ)) 1 [5] [5, 6])]
    (comparePair (fun _ _ => (1 : ℚ)) 1 [5] [5, 6])
    (List.Mem.head _) (List.Mem.head _)
    (Or.inl (by rw [comparePair_size1]; decide))

/-- C7: every outcome direction produced by the engine is one of the three
encodings, so the exhaustiveness assertion of the renderer false-positive
accounting never fails on an engine result. -/
theorem C7_direction_exhaustive (s1 s2 : SampleMapping) (method : String)
    (tf : Sample → Sample → ℚ) (alpha : ℚ) (mm : List String)
    (bm m : String) (bms : List (String × CompareOutcome)) (o : CompareOutcome)
    (hbm : (bm, bms) ∈ (compareStats s1 s2 method tf alpha mm).results)
    (hm : (m, o) ∈ bms) :
    (o.result = "<" ∨ o.result = ">" ∨ o.result = "~") ∧
    fpBucketStep o.result ≠ FpBucket.assertFail := by
  have hres : (compareStats s1 s2 method tf alpha mm).results
      = buildResults s1 s2 tf alpha := rfl
  rw [hres] at hbm
  obtain ⟨a, b, rfl⟩ := mem_buildResults s1 s2 tf alpha bm m bms o hbm hm
  have h3 := comparePair_result_cases tf alpha a b
  refine ⟨h3, ?_⟩
  rcases h3 with h | h | h <;> rw [h] <;> decide

/-- Closed witness for C7 on a concrete suite with a non-rejecting test. -/
theorem C7_direction_exhaustive_witness :
    ((comparePair (fun _ _ => (1 : ℚ)) 1 [1, 2] [1, 3]).result = "<" ∨
      (comparePair (fun _ _ => (1 : ℚ)) 1 [1, 2] [1, 3]).result = ">" ∨
      (comparePair (fun _ _ => (1 : ℚ)) 1 [1, 2] [1, 3]).result = "~") ∧
    fpBucketStep (comparePair (fun _ _ => (1 : ℚ)) 1 [1, 2] [1, 3]).result ≠
      FpBucket.assertFail :=
  C7_direction_exhaustive [("bm", [("t", [1, 2])])] [("bm", [("t", [1, 3])])]
    "mannwhitneyu" (fun _ _ => (1 : ℚ)) 1 ["t"] "bm" "t"
    [("t", comparePair (fun _ _ => (1 : ℚ)) 1 [1, 2] [1, 3])]
    (comparePair (fun _ _ => (1 : ℚ)) 1 [1, 2] [1, 3])
    (List.Mem.head _) (List.Mem.head _)

/-- C3 counterexample: with --bonferroni set on a suite where source 1 has
two benchmarks but only one is shared with source 2 and one primary metric
is tested, the alpha handed to the engine is the user alpha divided by 2,
not the user alpha divided by the single primary-metric comparison. -/
theorem C3_counterexample :
    effectiveAlphaMain (1/25) true
        [("a", [("t", [1, 2, 3])]), ("b", [("t", [1, 2, 3])])] ≠
      (1/25) / ((numPrimaryMetricTests
        (compareStats [("a", [("t", [1, 2, 3])]), ("b", [("t", [1, 2, 3])])]
          [("a", [("t", [1, 2, 3])])] "brunnermunzel" (fun _ _ => 1)
          (effectiveAlphaMain (1/25) true
            [("a", [("t", [1, 2, 3])]), ("b", [("t", [1, 2, 3])])])
          ["t"]) ["t"] : ℕ) : ℚ) := by
  have h : numPrimaryMetricTests
      (compareStats [("a", [("t", [1, 2, 3])]), ("b", [("t", [1, 2, 3])])]
        [("a", [("t", [1, 2, 3])])] "brunnermunzel" (fun _ _ => 1)
        (effectiveAlphaMain (1/25) true
          [("a", [("t", [1, 2, 3])]), ("b", [("t", [1, 2, 3])])])
        ["t"]) ["t"] = 1 := rfl
  rw [h]
  simp only [effectiveAlphaMain]
  norm_num

/-- C3 amended: when --bonferroni is set, the alpha handed to the
comparison engine is the user-supplied alpha divided by the number of
benchmark entries of the first sample mapping, irrespective of the number
of requested or primary metrics and of the benchmark intersection with the
second mapping; without the flag the alpha is passed through unchanged. -/
theorem C3_alpha_div_nbenchmarks (alpha : ℚ) (s1 : SampleMapping) :
    effectiveAlphaMain alpha true s1 = alpha / (s1.length : ℚ) ∧
    effectiveAlphaMain alpha false s1 = alpha ∧
    (∀ s1b : SampleMapping, s1.length = s1b.length →
      effectiveAlphaMain alpha true s1 = effectiveAlphaMain alpha true s1b) := by
  refine ⟨rfl, rfl, ?_⟩
  intro s1b h
  simp only [effectiveAlphaMain, h]

/-- Closed witness for the amended C3: two mappings with different
benchmark names but equal benchmark counts receive the same corrected
alpha. -/
theorem C3_alpha_div_nbenchmarks_witness :
    effectiveAlphaMain (1/25) true [("a", []), ("b", [])] =
      effectiveAlphaMain (1/25) true [("c", []), ("d", [])] :=
  (C3_alpha_div_nbenchmarks (1/25) [("a", []), ("b", [])]).2.2
    [("c", []), ("d", [])] rfl

/-- C4: the process exit status is 2 when alpha is out of range, and for a
valid configuration it is 1 exactly when the Comparison Result flag
at_least_one_differs is set and 0 exactly when it is not. -/
theorem C4_exit_codes (alpha : ℚ) (bonferroni : Bool) (s1 s2 : SampleMapping)
    (method : String) (tf : Sample → Sample → ℚ) (mm : List String) :
    ((alpha > 1/2 ∨ alpha ≤ 0) →
      mainExitCode alpha bonferroni s1 s2 method tf mm = 2) ∧
    (0 < alpha → alpha ≤ 1/2 →
      ((mainExitCode alpha bonferroni s1 s2 method tf mm = 1 ↔
        (compareStats s1 s2 method tf (effectiveAlphaMain alpha bonferroni s1)
          mm).at_least_one_differs = true) ∧
       (mainExitCode alpha bonferroni s1 s2 method tf mm = 0 ↔
        (compareStats s1 s2 method tf (effectiveAlphaMain alpha bonferroni s1)
          mm).at_least_one_differs = false))) := by
  constructor
  · intro h
    rw [mainExitCode, if_pos h]
  · intro h1 h2
    have hv : ¬(alpha > 1/2 ∨ alpha ≤ 0) := by
      push_neg
      exact ⟨h2, h1⟩
    rw [mainExitCode, if_neg hv]
    cases hflag : (compareStats s1 s2 method tf
        (effectiveAlphaMain alpha bonferroni s1) mm).at_least_one_differs <;>
      simp [hflag]

/-- Closed witness for C4 at an out-of-range alpha. -/
theorem C4_exit_codes_witness :
    mainExitCode 1 false [] [] "brunnermunzel" (fun _ _ => 1) ["t"] = 2 :=
  (C4_exit_codes 1 false [] [] "brunnermunzel" (fun _ _ => 1) ["t"]).1
    (by norm_num)

/-- C5: every alpha outside the interval (0, 1/2] is rejected with exit
status 2, independently of the data and of the test function (so before any
comparison contributes), while alpha equal to 1/2 exactly is accepted; in
particular alpha 0 and every alpha above 1/2 are rejected. -/
theorem C5_alpha_gate (bonferroni : Bool) (s1 s2 : SampleMapping)
    (method : String) (tf tg : Sample → Sample → ℚ) (mm : List String) :
    (∀ alpha : ℚ, alpha ≤ 0 ∨ alpha > 1/2 →
      mainExitCode alpha bonferroni s1 s2 method tf mm = 2) ∧
    (∀ alpha : ℚ, alpha ≤ 0 ∨ alpha > 1/2 →
      mainExitCode alpha bonferroni s1 s2 method tf mm =
        mainExitCode alpha bonferroni s1 s2 method tg mm) ∧
    mainExitCode (1/2) bonferroni s1 s2 method tf mm ≠ 2 ∧
    mainExitCode 0 bonferroni s1 s2 method tf mm = 2 ∧
    (∀ alpha : ℚ, alpha > 1/2 →
      mainExitCode alpha bonferroni s1 s2 method tf mm = 2) := by
  have hrej : ∀ alpha : ℚ, alpha ≤ 0 ∨ alpha > 1/2 →
      mainExitCode alpha bonferroni s1 s2 method tf mm = 2 := by
    intro alpha h
    rw [mainExitCode, if_pos h.symm]
  refine ⟨hrej, ?_, ?_, ?_, ?_⟩
  · intro alpha h
    rw [mainExitCode, if_pos h.symm, mainExitCode, if_pos h.symm]
  · have hv : ¬((1:ℚ)/2 > 1/2 ∨ (1:ℚ)/2 ≤ 0) := by norm_num
    rw [mainExitCode, if_neg hv]
    split <;> simp
  · exact hrej 0 (Or.inl le_rfl)
  · intro alpha h
    exact hrej alpha (Or.inr h)

/-- Closed witness for C5 at alpha three fifths. -/
theorem C5_alpha_gate_witness :
    mainExitCode (3/5) false [] [] "brunnermunzel" (fun _ _ => 1) ["t"] = 2 :=
  (C5_alpha_gate false [] [] "brunnermunzel" (fun _ _ => 1) (fun _ _ => 1)
    ["t"]).2.2.2.2 (3/5) (by norm_num)

/-- C6: the --method option accepts exactly the registry keys: any id
outside the Test Method Registry is rejected during argument parsing as an
invalid choice, any registry id is accepted, and the default is the first
registry key. -/
theorem C6_method_choice :
    (∀ s : String, s ∉ kMethodIds →
      parseMethodArg (some s) = ArgChoice.invalidChoice s) ∧
    (∀ s : String, s ∈ kMethodIds →
      parseMethodArg (some s) = ArgChoice.accepted s) ∧
    parseMethodArg none = ArgChoice.accepted kMethodIds.headI := by
  refine ⟨?_, ?_, rfl⟩
  · intro s h
    simp only [parseMethodArg]
    rw [if_neg (fun hc => h (List.elem_iff.mp hc))]
  · intro s h
    simp only [parseMethodArg]
    rw [if_pos (List.elem_iff.mpr h)]

/-- Closed witness for C6 at an id outside the registry. -/
theorem C6_method_choice_witness :
    parseMethodArg (some "kruskalwallis") =
      ArgChoice.invalidChoice "kruskalwallis" :=
  C6_method_choice.1 "kruskalwallis" (by decide)

/-- C10: when the primary metrics are not designated (None or an empty
list), both the CLI driver and the renderer substitute the first requested
metric as the sole primary metric; the CLI default index list [0] picks the
same metric. -/
theorem C10_main_metric_default (metrics : List String)
    (cr : CompareStatsResult) (h : metrics ≠ []) (hg : getMetrics cr ≠ []) :
    resolveMainMetricsCli none metrics = some [metrics.headI] ∧
    resolveMainMetricsCli (some []) metrics = some [metrics.headI] ∧
    resolveMainMetricsCli kMainMetricsDefault metrics = some [metrics.headI] ∧
    resolveMainMetricsRender none (getMetrics cr) =
      some [(getMetrics cr).headI] ∧
    resolveMainMetricsRender (some []) (getMetrics cr) =
      some [(getMetrics cr).headI] := by
  cases hme : metrics with
  | nil => exact absurd hme h
  | cons x xs =>
    cases hgm : getMetrics cr with
    | nil => exact absurd hgm hg
    | cons y ys => exact ⟨rfl, rfl, rfl, rfl, rfl⟩

/-- Closed witness for C10 on a one-metric suite. -/
theorem C10_main_metric_default_witness :
    resolveMainMetricsRender none
        (getMetrics (compareStats [("bm", [("t", [1, 2])])]
          [("bm", [("t", [3, 4])])] "brunnermunzel" (fun _ _ => 1) 1 ["t"])) =
      some [(getMetrics (compareStats [("bm", [("t", [1, 2])])]
        [("bm", [("t", [3, 4])])] "brunnermunzel" (fun _ _ => 1) 1 ["t"])).headI] :=
  (C10_main_metric_default ["real_time"]
    (compareStats [("bm", [("t", [1, 2])])] [("bm", [("t", [3, 4])])]
      "brunnermunzel" (fun _ _ => 1) 1 ["t"])
    (by decide) (by decide)).2.2.2.1

/-- C9 counterexample: with a non-empty export_to and an export_fmt outside
the known formats, the function does not return export_fmt unchanged but
fails its format assertion. -/
theorem C9_counterexample :
    _detectExportFormat (some "a.txt") (some "pdf") ≠
      DetectResult.ok (some "pdf") := by
  decide

/-- C9 amended: the function asserts that either both arguments are None or
export_to is a non-empty string; with both None it returns None; a non-None
export_fmt is returned unchanged only when it is one of txt, svg, html, and
fails an assertion otherwise; with export_fmt None and export_to given it
returns the export_to extension without the leading dot when that extension
is .txt, .svg or .html, and fails an assertion for any other extension. -/
theorem C9_detect_export_format :
    (∀ f : String, _detectExportFormat none (some f) =
      DetectResult.assertError "export_to and export_fmt shape") ∧
    (∀ ef : Option String, _detectExportFormat (some "") ef =
      DetectResult.assertError "export_to and export_fmt shape") ∧
    _detectExportFormat none none = DetectResult.ok none ∧
    (∀ s f : String, 0 < s.length →
      _detectExportFormat (some s) (some f) =
        (if kAvailableFormats.contains f then DetectResult.ok (some f)
         else DetectResult.assertError "export_fmt not in kAvailableFormats")) ∧
    (∀ s : String, 0 < s.length →
      _detectExportFormat (some s) none =
        (if (kAvailableFormats.map (fun e => "." ++ e)).contains (splitext s).2 then
          DetectResult.ok (some ((splitext s).2.drop 1))
         else DetectResult.assertError "Unrecognized export file extension")) := by
  refine ⟨fun f => rfl, fun ef => ?_, rfl, ?_, ?_⟩
  · cases ef <;> rfl
  · intro s f h
    simp only [_detectExportFormat, decide_eq_true h, Bool.not_true,
      Bool.false_eq_true, if_false]
    cases hc : kAvailableFormats.contains f <;> simp [hc]
  · intro s h
    simp only [_detectExportFormat, decide_eq_true h, Bool.not_true,
      Bool.false_eq_true, if_false]

/-- Closed witness for the amended C9 on a concrete svg path. -/
theorem C9_detect_export_format_witness :
    _detectExportFormat (some "res.svg") none =
      (if (kAvailableFormats.map (fun e => "." ++ e)).contains (splitext "res.svg").2 then
        DetectResult.ok (some ((splitext "res.svg").2.drop 1))
       else DetectResult.assertError "Unrecognized export file extension") :=
  C9_detect_export_format.2.2.2.2 "res.svg" (by decide)

/-- C8: makeReadable over exact rationals is case-complete: a value of at
least 1 is rendered fixed-point with no suffix; otherwise the suffix m, u,
n, p or f named by the first multiplication by 1000 whose product reaches 1
is appended to the rendering of that product; and when no product up to the
fifth reaches 1 (in particular for zero, negative, and sub-femto positive
values) the original value is rendered in scientific format. -/
theorem C8_makeReadable_bands (value : ℚ) (prec : ℕ) :
    (1 ≤ value → makeReadable value prec = _render value prec) ∧
    (∀ k : ℕ, 1 ≤ k → k ≤ 5 → value < 1 → 1 ≤ value * 1000 ^ k →
      (∀ j : ℕ, 1 ≤ j → j < k → value * 1000 ^ j < 1) →
      makeReadable value prec =
        _render (value * 1000 ^ k) prec ++ kSuffixes.getD (k - 1) "") ∧
    (value * 1000 ^ 5 < 1 →
      makeReadable value prec = sciFormat value prec) := by
  have e1 : value * 1000 ^ 1 = value * 1000 := by ring
  have e2 : value * 1000 ^ 2 = value * 1000 * 1000 := by ring
  have e3 : value * 1000 ^ 3 = value * 1000 * 1000 * 1000 := by ring
  have e4 : value * 1000 ^ 4 = value * 1000 * 1000 * 1000 * 1000 := by ring
  have e5 : value * 1000 ^ 5 = value * 1000 * 1000 * 1000 * 1000 * 1000 := by ring
  have step : ∀ x : ℚ, x * 1000 < 1 → x < 1 := by
    intro x hx
    by_contra hge
    push_neg at hge
    nlinarith
  refine ⟨?_, ?_, ?_⟩
  · intro h
    rw [makeReadable, if_pos h]
  · intro k hk1 hk5 hv hge hall
    interval_cases k
    · rw [e1] at hge
      rw [makeReadable, if_neg (not_le.mpr hv), if_pos hge, e1]
      rfl
    · have h1 : value * 1000 < 1 := by
        have hh := hall 1 (by norm_num) (by norm_num)
        rwa [e1] at hh
      rw [e2] at hge
      rw [makeReadable, if_neg (not_le.mpr hv), if_neg (not_le.mpr h1),
        if_pos hge, e2]
      rfl
    · have h1 : value * 1000 < 1 := by
        have hh := hall 1 (by norm_num) (by norm_num)
        rwa [e1] at hh
      have h2 : value * 1000 * 1000 < 1 := by
        have hh := hall 2 (by norm_num) (by norm_num)
        rwa [e2] at hh
      rw [e3] at hge
      rw [makeReadable, if_neg (not_le.mpr hv), if_neg (not_le.mpr h1),
        if_neg (not_le.mpr h2), if_pos hge, e3]
      rfl
    · have h1 : value * 1000 < 1 := by
        have hh := hall 1 (by norm_num) (by norm_num)
        rwa [e1] at hh
      have h2 : value * 1000 * 1000 < 1 := by
        have hh := hall 2 (by norm_num) (by norm_num)
        rwa [e2] at hh
      have h3 : value * 1000 * 1000 * 1000 < 1 := by
        have hh := hall 3 (by norm_num) (by norm_num)
        rwa [e3] at hh
      rw [e4] at hge
      rw [makeReadable, if_neg (not_le.mpr hv), if_neg (not_le.mpr h1),
        if_neg (not_le.mpr h2), if_neg (not_le.mpr h3), if_pos hge, e4]
      rfl
    · have h1 : value * 1000 < 1 := by
        have hh := hall 1 (by norm_num) (by norm_num)
        rwa [e1] at hh
      have h2 : value * 1000 * 1000 < 1 := by
        have hh := hall 2 (by norm_num) (by norm_num)
        rwa [e2] at hh
      have h3 : value * 1000 * 1000 * 1000 < 1 := by
        have hh := hall 3 (by norm_num) (by norm_num)
        rwa [e3] at hh
      have h4 : value * 1000 * 1000 * 1000 * 1000 < 1 := by
        have hh := hall 4 (by norm_num) (by norm_num)
        rwa [e4] at hh
      rw [e5] at hge
      rw [makeReadable, if_neg (not_le.mpr hv), if_neg (not_le.mpr h1),
        if_neg (not_le.mpr h2), if_neg (not_le.mpr h3), if_neg (not_le.mpr h4),
        if_pos hge, e5]
      rfl
  · intro h5
    rw [e5] at h5
    have h4 : value * 1000 * 1000 * 1000 * 1000 < 1 := step _ h5
    have h3 : value * 1000 * 1000 * 1000 < 1 := step _ h4
    have h2 : value * 1000 * 1000 < 1 := step _ h3
    have h1 : value * 1000 < 1 := step _ h2
    have h0 : value < 1 := step _ h1
    rw [makeReadable, if_neg (not_le.mpr h0), if_neg (not_le.mpr h1),
      if_neg (not_le.mpr h2), if_neg (not_le.mpr h3), if_neg (not_le.mpr h4),
      if_neg (not_le.mpr h5)]

/-- Closed witness for C8: zero falls through every band into the
scientific format of the original value. -/
theorem C8_makeReadable_bands_witness :
    makeReadable 0 1 = sciFormat 0 1 :=
  (C8_makeReadable_bands 0 1).2.2 (by norm_num)

end Benchstats
